import Mathlib

/-!
Shallow embedding of the churn aggregator of `scripts/churn_rate.py` and the
line counter of `scripts/utils/utils.py`.

An archive is modelled as the list of date directories in the order the
script processes them (the sorted glob result).  A directory carries its
name and, for each of the three role files, `none` when the file is missing
and otherwise the list of its lines.  Floating-point arithmetic of the
source is modelled exactly over `ℚ`.
-/

/-- A calendar date, as produced by `datetime.strptime(date_str, "%Y-%m-%d")`. -/
structure Date where
  year : Nat
  month : Nat
  day : Nat
deriving DecidableEq, Repr

/-- Gregorian leap-year test used by `datetime`. -/
def isLeap (y : Nat) : Bool :=
  y % 4 == 0 && (y % 100 != 0 || y % 400 == 0)

/-- Number of days in month `m` of year `y`. -/
def daysInMonth (y m : Nat) : Nat :=
  if m = 2 then (if isLeap y then 29 else 28)
  else if m = 4 ∨ m = 6 ∨ m = 9 ∨ m = 11 then 30
  else 31

/-- Validity of a `datetime.date`: year in `MINYEAR..MAXYEAR`, month `1..12`,
day within the month. -/
def validDate (y m d : Nat) : Bool :=
  decide (1 ≤ y) && decide (y ≤ 9999) && decide (1 ≤ m) && decide (m ≤ 12) &&
    decide (1 ≤ d) && decide (d ≤ daysInMonth y m)

/-- Numeric value of a decimal digit character. -/
def digitVal (c : Char) : Nat := c.toNat - 48

/-- Model of `datetime.strptime(s, "%Y-%m-%d")` restricted to the names the
glob pattern `????-??-??` can produce: the parse succeeds exactly on
ten-character strings `dddd-dd-dd` (digits and two dashes) denoting a valid
calendar date; everything else raises `ValueError`, i.e. yields `none`. -/
def parseDate (s : String) : Option Date :=
  match s.toList with
  | [y1, y2, y3, y4, h1, m1, m2, h2, d1, d2] =>
    if y1.isDigit && y2.isDigit && y3.isDigit && y4.isDigit && h1 == '-' &&
        m1.isDigit && m2.isDigit && h2 == '-' && d1.isDigit && d2.isDigit then
      let y := ((digitVal y1 * 10 + digitVal y2) * 10 + digitVal y3) * 10 + digitVal y4
      let m := digitVal m1 * 10 + digitVal m2
      let d := digitVal d1 * 10 + digitVal d2
      if validDate y m d then some ⟨y, m, d⟩ else none
    else none
  | _ => none

/-- Days before month `m` in year `y` (proleptic Gregorian). -/
def daysBeforeMonth (y m : Nat) : Nat :=
  ((List.range' 1 (m - 1)).map (daysInMonth y)).sum

/-- `date.toordinal()` of the proleptic Gregorian calendar; the difference of
two ordinals is the `timedelta.days` the script computes at line 88. -/
def dayNumber (dt : Date) : Int :=
  let y : Int := (dt.year : Int) - 1
  365 * y + y / 4 - y / 100 + y / 400 +
    (daysBeforeMonth dt.year dt.month : Int) + (dt.day : Int)

/-- Strict comparison of `datetime` objects: lexicographic on
(year, month, day). -/
def dateLt (a b : Date) : Prop :=
  a.year < b.year ∨ (a.year = b.year ∧
    (a.month < b.month ∨ (a.month = b.month ∧ a.day < b.day)))

/-- Non-strict comparison of `datetime` objects. -/
def dateLe (a b : Date) : Prop :=
  a.year < b.year ∨ (a.year = b.year ∧
    (a.month < b.month ∨ (a.month = b.month ∧ a.day ≤ b.day)))

instance : DecidableRel dateLt := fun a b => by
  unfold dateLt; exact inferInstance

instance : DecidableRel dateLe := fun a b => by
  unfold dateLe; exact inferInstance

instance : IsTotal Date dateLe :=
  ⟨fun a b => by unfold dateLe; omega⟩

instance : IsTrans Date dateLe :=
  ⟨fun a b c hab hbc => by unfold dateLe at *; omega⟩

/-- Python's `str.strip()` restricted to ASCII whitespace: drop whitespace
from both ends. -/
def pyStrip (s : String) : String :=
  String.mk (((s.toList.dropWhile Char.isWhitespace).reverse.dropWhile
    Char.isWhitespace).reverse)

/-- One date directory of the archive: its name and, per role file, `none`
when the file is missing, else the file's lines. -/
structure DirEntry where
  name : String
  relayFile : Option (List String)
  exitFile : Option (List String)
  guardFile : Option (List String)

/-- One snapshot of `date_nodes`: the parsed date and the three role sets. -/
structure Snapshot where
  date : Date
  relay : Finset String
  exit : Finset String
  guard : Finset String
deriving DecidableEq

/-- Reading one role file (lines 49-58 etc. of `churn_rate.py`): a missing
file contributes the empty set; each line is stripped and skipped when the
result is empty. -/
def readRole (file : Option (List String)) : Finset String :=
  match file with
  | none => ∅
  | some lines => ((lines.map pyStrip).filter (fun s => s != "")).toFinset

/-- `count_nodes_in_file` of `scripts/utils/utils.py`: `len(f.readlines())`,
with `FileNotFoundError` mapped to 0. -/
def count_nodes_in_file (file : Option (List String)) : Nat :=
  match file with
  | none => 0
  | some lines => lines.length

/-- The snapshot a directory contributes: `none` when its name does not
parse as a date (the `except ValueError: continue` at lines 41-44). -/
def entrySnapshot? (e : DirEntry) : Option Snapshot :=
  (parseDate e.name).map fun d =>
    { date := d
      relay := readRole e.relayFile
      exit := readRole e.exitFile
      guard := readRole e.guardFile }

/-- The snapshots of an archive, in processing order. -/
def snapshots (entries : List DirEntry) : List Snapshot :=
  entries.filterMap entrySnapshot?

/-- Union of the three role sets of a snapshot (the `current_nodes` /
`prev_nodes` unions at lines 105-107 and 115-117). -/
def Snapshot.union (s : Snapshot) : Finset String :=
  s.relay ∪ s.exit ∪ s.guard

/-- One snapshot's update of the `node_first_seen` / `node_last_seen` dicts
(lines 56-58 and the two analogous blocks): first-seen is set only when the
identifier has no entry yet, last-seen is overwritten on every appearance. -/
def seenStep (m : (String → Option Date) × (String → Option Date))
    (s : Snapshot) : (String → Option Date) × (String → Option Date) :=
  (fun ip => if ip ∈ s.union ∧ m.1 ip = none then some s.date else m.1 ip,
   fun ip => if ip ∈ s.union then some s.date else m.2 ip)

/-- The two seen-maps after scanning all snapshots in processing order. -/
def scanSeen (ss : List Snapshot) :
    (String → Option Date) × (String → Option Date) :=
  ss.foldl seenStep (fun _ => none, fun _ => none)

/-- `node_first_seen` lookup. -/
def firstSeenD (ss : List Snapshot) (ip : String) : Option Date :=
  (scanSeen ss).1 ip

/-- `node_last_seen` lookup. -/
def lastSeenD (ss : List Snapshot) (ip : String) : Option Date :=
  (scanSeen ss).2 ip

/-- The set of identifiers ever seen (the key set of `node_first_seen`). -/
def seenIps (ss : List Snapshot) : Finset String :=
  ss.foldl (fun acc s => acc ∪ s.union) ∅

/-- `(last_date - first_date).days` for one identifier (lines 86-88);
0 when the identifier was never seen. -/
def lifespanDays (ss : List Snapshot) (ip : String) : Int :=
  match firstSeenD ss ip, lastSeenD ss ip with
  | some f, some l => dayNumber l - dayNumber f
  | _, _ => 0

/-- The `lifespans` list (lines 85-89); the dict iteration order does not
matter to any statistic, so the multiset of values models the list. -/
def lifespansList (ss : List Snapshot) : Multiset Int :=
  (seenIps ss).val.map (lifespanDays ss)

/-- `avg_lifetime` (line 91): guarded mean of the lifespans. -/
def avgLifetime (lsp : Multiset Int) : ℚ :=
  if lsp = 0 then 0 else (lsp.sum : ℚ) / (Multiset.card lsp : ℚ)

/-- The dates appearing in snapshots in which `ip` appears, in processing
order. -/
def appearDates (ss : List Snapshot) (ip : String) : List Date :=
  (ss.filter (fun s => decide (ip ∈ s.union))).map Snapshot.date

/-- `sorted(date_nodes.keys())` (line 99): the distinct parsed dates,
sorted ascending. -/
def sortedDates (ss : List Snapshot) : List Date :=
  ((ss.map Snapshot.date).dedup).insertionSort dateLe

/-- `date_nodes[d]` followed by the union of its three role sets: the dict
entry for a date is the one written by the last directory bearing it. -/
def dateUnion (ss : List Snapshot) (d : Date) : Finset String :=
  match ss.reverse.find? (fun s => decide (s.date = d)) with
  | some s => s.union
  | none => ∅

/-- The loop of lines 104-126: per index, the (new, departed, churn-rate)
triple; index 0 gets `(|current|, 0, 0)`, later indices compare with the
previous union, and the churn percentage is guarded when the previous union
is empty. -/
def dailySeries (us : List (Finset String)) : List (Nat × Nat × ℚ) :=
  (List.range us.length).map fun i =>
    if i = 0 then ((us.getD i ∅).card, 0, 0)
    else
      ((us.getD i ∅ \ us.getD (i - 1) ∅).card,
       (us.getD (i - 1) ∅ \ us.getD i ∅).card,
       if 0 < (us.getD (i - 1) ∅).card then
         ((us.getD (i - 1) ∅ \ us.getD i ∅).card : ℚ) /
           ((us.getD (i - 1) ∅).card : ℚ) * 100
       else 0)

/-- The ordered list of per-date unions the daily loop iterates over. -/
def churnUnions (entries : List DirEntry) : List (Finset String) :=
  (sortedDates (snapshots entries)).map (dateUnion (snapshots entries))

/-- The full (new, departed, churn-rate) series of an archive. -/
def churnTriples (entries : List DirEntry) : List (Nat × Nat × ℚ) :=
  dailySeries (churnUnions entries)

/-- `new_nodes_per_day`. -/
def newSeq (entries : List DirEntry) : List Nat :=
  (churnTriples entries).map (fun t => t.1)

/-- `departed_nodes_per_day`. -/
def departedSeq (entries : List DirEntry) : List Nat :=
  (churnTriples entries).map (fun t => t.2.1)

/-- `churn_rate_per_day`. -/
def rateSeq (entries : List DirEntry) : List ℚ :=
  (churnTriples entries).map (fun t => t.2.2)

/-- The `dates` output sequence. -/
def dateSeq (entries : List DirEntry) : List Date :=
  sortedDates (snapshots entries)

/-- Number of directories whose name parses as a date. -/
def validDirCount (entries : List DirEntry) : Nat :=
  (entries.filter (fun e => (parseDate e.name).isSome)).length

/-- The record `collect_churn_data` returns (lines 133-141). -/
structure ChurnData where
  dates : List Date
  new_nodes : List Nat
  departed_nodes : List Nat
  churn_rate : List ℚ
  avg_lifetime : ℚ
  total_nodes : Nat
  lifespans : Multiset Int

/-- `collect_churn_data` end to end.  The two `Except.error` results model
the unhandled exceptions the function can raise: `min(lifespans)` at
line 95 on an empty lifespan list, and the division by
`len(new_nodes_per_day)` at line 129 when no snapshot exists (the latter is
dominated by the former, since no snapshots means no lifespans). -/
def collect_churn_data (entries : List DirEntry) : Except String ChurnData :=
  let ss := snapshots entries
  let lsp := lifespansList ss
  let avg := avgLifetime lsp
  if lsp = 0 then
    Except.error "ValueError: min() iterable argument is empty"
  else
    let dates := sortedDates ss
    if dates.isEmpty then
      Except.error "ZeroDivisionError: division by zero"
    else
      Except.ok
        { dates := dates
          new_nodes := newSeq entries
          departed_nodes := departedSeq entries
          churn_rate := rateSeq entries
          avg_lifetime := avg
          total_nodes := (seenIps ss).card
          lifespans := lsp }

/-- The three averages the textual report prints (lines 129-131), over the
full series. -/
def reportAverages (d : ChurnData) : ℚ × ℚ × ℚ :=
  ((d.new_nodes.sum : ℚ) / (d.new_nodes.length : ℚ),
   (d.departed_nodes.sum : ℚ) / (d.departed_nodes.length : ℚ),
   d.churn_rate.sum / (d.churn_rate.length : ℚ))

/-- The three averages of the chart's annotation box (lines 149-152 slice
off the first entry; lines 196-198 average the slices with an emptiness
guard). -/
def chartAverages (d : ChurnData) : ℚ × ℚ × ℚ :=
  let n := d.new_nodes.drop 1
  let dep := d.departed_nodes.drop 1
  let c := d.churn_rate.drop 1
  (if n.isEmpty then 0 else (n.sum : ℚ) / (n.length : ℚ),
   if dep.isEmpty then 0 else (dep.sum : ℚ) / (dep.length : ℚ),
   if c.isEmpty then 0 else c.sum / (c.length : ℚ))

/-- The spec's notion of the mean of a series. -/
def specMean (l : List ℚ) : ℚ := l.sum / (l.length : ℚ)

/-- A two-day archive with previous union {A,B,C} and current union
{B,C,D}. -/
def demoPrevCur : List DirEntry :=
  [⟨"2024-01-01", some ["A", "B", "C"], none, none⟩,
   ⟨"2024-01-02", some ["B", "C", "D"], none, none⟩]

/-- An archive in which identifier X appears on 2024-01-01 (as a relay)
and on 2024-01-10 (as an exit). -/
def demoLife : List DirEntry :=
  [⟨"2024-01-01", some ["X"], none, none⟩,
   ⟨"2024-01-10", none, some ["X"], none⟩]

lemma foldl_seenStep_fst (ip : String) (ss : List Snapshot) :
    ∀ m : (String → Option Date) × (String → Option Date),
      (ss.foldl seenStep m).1 ip =
        (m.1 ip).or
          ((ss.find? (fun s => decide (ip ∈ s.union))).map Snapshot.date) := by
  induction ss with
  | nil => intro m; cases h : m.1 ip <;> simp [h]
  | cons s t ih =>
    intro m
    rw [List.foldl_cons, ih]
    by_cases hmem : ip ∈ s.union
    · cases hm : m.1 ip with
      | none => simp [seenStep, hmem, hm, List.find?_cons_of_pos]
      | some d => simp [seenStep, hmem, hm, List.find?_cons_of_pos]
    · cases hm : m.1 ip with
      | none => simp [seenStep, hmem, hm, List.find?_cons_of_neg]
      | some d => simp [seenStep, hmem, hm, List.find?_cons_of_neg]

lemma foldl_seenStep_snd (ip : String) (ss : List Snapshot) :
    ∀ m : (String → Option Date) × (String → Option Date),
      (ss.foldl seenStep m).2 ip =
        ((ss.reverse.find? (fun s => decide (ip ∈ s.union))).map
            Snapshot.date).or (m.2 ip) := by
  induction ss with
  | nil => intro m; simp
  | cons s t ih =>
    intro m
    rw [List.foldl_cons, ih]
    rw [List.reverse_cons, List.find?_append]
    cases hr : t.reverse.find? (fun s => decide (ip ∈ s.union)) with
    | some u => simp
    | none =>
      by_cases hmem : ip ∈ s.union
      · simp [seenStep, hmem]
      · simp [seenStep, hmem]

lemma find?_eq_head?_filter {α : Type} (p : α → Bool) (l : List α) :
    l.find? p = (l.filter p).head? := by
  induction l with
  | nil => rfl
  | cons a t ih =>
    by_cases h : p a
    · simp [List.find?_cons_of_pos _ h, List.filter_cons, h]
    · simp only [Bool.not_eq_true] at h
      simp [List.find?_cons_of_neg, List.filter_cons, h]

/-- `node_first_seen[ip]` is the date of the first snapshot (in processing
order) whose union contains `ip`. -/
lemma firstSeenD_eq_head (ss : List Snapshot) (ip : String) :
    firstSeenD ss ip = (appearDates ss ip).head? := by
  unfold firstSeenD scanSeen
  rw [foldl_seenStep_fst]
  simp only [Option.none_or]
  rw [find?_eq_head?_filter]
  unfold appearDates
  rw [List.head?_map]

/-- `node_last_seen[ip]` is the date of the last snapshot (in processing
order) whose union contains `ip`. -/
lemma lastSeenD_eq_getLast (ss : List Snapshot) (ip : String) :
    lastSeenD ss ip = (appearDates ss ip).getLast? := by
  unfold lastSeenD scanSeen
  rw [foldl_seenStep_snd]
  rw [find?_eq_head?_filter, List.filter_reverse, List.head?_reverse]
  simp only [Option.or_none]
  unfold appearDates
  rw [List.getLast?_map]

lemma dateLe_of_dateLt {a b : Date} (h : dateLt a b) : dateLe a b := by
  unfold dateLt dateLe at *; omega

lemma ne_of_dateLt {a b : Date} (h : dateLt a b) : a ≠ b := by
  intro e
  subst e
  unfold dateLt at h
  omega

lemma date_eq_of_fields {a b : Date} (hy : a.year = b.year)
    (hm : a.month = b.month) (hd : a.day = b.day) : a = b := by
  cases a
  cases b
  simp only [Date.mk.injEq]
  exact ⟨hy, hm, hd⟩

lemma dateLt_of_dateLe_of_ne {a b : Date} (h : dateLe a b) (hne : a ≠ b) :
    dateLt a b := by
  unfold dateLe at h
  unfold dateLt
  by_contra hno
  have hy : a.year = b.year := by omega
  have hm : a.month = b.month := by omega
  have hd : a.day = b.day := by omega
  exact hne (date_eq_of_fields hy hm hd)

lemma dailySeries_length (us : List (Finset String)) :
    (dailySeries us).length = us.length := by
  simp [dailySeries]

lemma dailySeries_getD_succ (us : List (Finset String)) (i : Nat) (h1 : 1 ≤ i)
    (h2 : i < us.length) :
    (dailySeries us).getD i (0, 0, 0) =
      ((us.getD i ∅ \ us.getD (i - 1) ∅).card,
       (us.getD (i - 1) ∅ \ us.getD i ∅).card,
       if 0 < (us.getD (i - 1) ∅).card then
         ((us.getD (i - 1) ∅ \ us.getD i ∅).card : ℚ) /
           ((us.getD (i - 1) ∅).card : ℚ) * 100
       else 0) := by
  have hlen : i < (dailySeries us).length := by rw [dailySeries_length]; exact h2
  rw [List.getD_eq_getElem _ _ hlen]
  unfold dailySeries
  rw [List.getElem_map, List.getElem_range]
  simp only [if_neg (show ¬ i = 0 by omega)]

lemma dailySeries_head (u : Finset String) (rest : List (Finset String)) :
    (dailySeries (u :: rest)).head? = some (u.card, 0, 0) := by
  unfold dailySeries
  rw [List.length_cons, List.range_succ_eq_map]
  simp

lemma snapshots_length (entries : List DirEntry) :
    (snapshots entries).length = validDirCount entries := by
  induction entries with
  | nil => rfl
  | cons e t ih =>
    cases h : parseDate e.name with
    | none =>
      have he : entrySnapshot? e = none := by simp [entrySnapshot?, h]
      simp [snapshots, validDirCount, List.filterMap_cons, List.filter_cons, he, h]
      simpa [snapshots, validDirCount] using ih
    | some d =>
      have he : (entrySnapshot? e).isSome := by simp [entrySnapshot?, h]
      cases hes : entrySnapshot? e with
      | none => rw [hes] at he; simp at he
      | some s =>
        simp [snapshots, validDirCount, List.filterMap_cons, List.filter_cons,
          hes, h]
        simpa [snapshots, validDirCount] using ih

lemma sortedDates_eq (ss : List Snapshot)
    (hs : (ss.map Snapshot.date).Pairwise dateLt) :
    sortedDates ss = ss.map Snapshot.date := by
  unfold sortedDates
  have hnd : (ss.map Snapshot.date).Nodup := hs.imp ne_of_dateLt
  rw [List.dedup_eq_self.mpr hnd]
  exact List.Sorted.insertionSort_eq (hs.imp dateLe_of_dateLt)

lemma dateUnion_eq (ss : List Snapshot) (hnd : (ss.map Snapshot.date).Nodup)
    {s : Snapshot} (hmem : s ∈ ss) : dateUnion ss s.date = s.union := by
  unfold dateUnion
  cases hf : ss.reverse.find? (fun u => decide (u.date = s.date)) with
  | none =>
    exfalso
    have hsome : (ss.reverse.find? (fun u => decide (u.date = s.date))).isSome :=
      List.find?_isSome.mpr ⟨s, List.mem_reverse.mpr hmem, by simp⟩
    rw [hf] at hsome
    simp at hsome
  | some u =>
    have hpu : u.date = s.date := by simpa using List.find?_some hf
    have humem : u ∈ ss := List.mem_reverse.mp (List.mem_of_find?_eq_some hf)
    rw [List.inj_on_of_nodup_map hnd humem hmem hpu]

lemma churnUnions_eq (entries : List DirEntry)
    (hs : ((snapshots entries).map Snapshot.date).Pairwise dateLt) :
    churnUnions entries = (snapshots entries).map Snapshot.union := by
  unfold churnUnions
  rw [sortedDates_eq _ hs, List.map_map]
  exact List.map_congr_left fun s hmem =>
    dateUnion_eq _ (hs.imp ne_of_dateLt) hmem

example : parseDate "2024-01-31" = some ⟨2024, 1, 31⟩ := by decide
example : parseDate "2024-13-40" = none := by decide
example : parseDate "2024-02-30" = none := by decide
example : parseDate "2024-02-29" = some ⟨2024, 2, 29⟩ := by decide
example : parseDate "2023-02-29" = none := by decide
example : dayNumber ⟨2024, 1, 10⟩ - dayNumber ⟨2024, 1, 1⟩ = 9 := by decide
example : dayNumber ⟨2024, 3, 1⟩ - dayNumber ⟨2024, 2, 28⟩ = 2 := by decide
example : dayNumber ⟨2023, 3, 1⟩ - dayNumber ⟨2023, 2, 28⟩ = 1 := by decide
example : newSeq demoPrevCur = [3, 1] := by decide
example : departedSeq demoPrevCur = [0, 1] := by decide
example : (0 : ℚ) ∈ rateSeq demoPrevCur := by decide
example : churnUnions demoPrevCur = [{"A", "B", "C"}, {"B", "C", "D"}] := by decide
example : dateSeq demoPrevCur = [⟨2024, 1, 1⟩, ⟨2024, 1, 2⟩] := by decide
example : firstSeenD (snapshots demoLife) "X" = some ⟨2024, 1, 1⟩ := by decide
example : lastSeenD (snapshots demoLife) "X" = some ⟨2024, 1, 10⟩ := by decide
example : lifespanDays (snapshots demoLife) "X" = 9 := by decide
example : (collect_churn_data []).isOk = false := by decide
example : appearDates (snapshots demoLife) "X" = [⟨2024, 1, 1⟩, ⟨2024, 1, 10⟩] := by
  decide
example : List.Pairwise (fun a b => dateLt a.date b.date) (snapshots demoLife) := by
  decide

/-- C3: for every non-empty archive (with snapshot dates strictly increasing
in processing order, as the archive layout guarantees), the first entry of
the output series is new = size of the first snapshot's three-role union,
departed = 0 and churn rate = 0, regardless of the snapshot's content. -/
theorem churn_C3 (entries : List DirEntry) (s0 : Snapshot) (rest : List Snapshot)
    (hs : ((snapshots entries).map Snapshot.date).Pairwise dateLt)
    (h : snapshots entries = s0 :: rest) :
    (churnTriples entries).head? = some (s0.union.card, 0, 0) := by
  have hu := churnUnions_eq entries hs
  rw [h, List.map_cons] at hu
  unfold churnTriples
  rw [hu]
  exact dailySeries_head _ _

/-- Witness for C3 at a concrete two-day archive. -/
theorem churn_C3_witness : (churnTriples demoPrevCur).head? = some (3, 0, 0) := by
  have h := churn_C3 demoPrevCur ⟨⟨2024, 1, 1⟩, {"A", "B", "C"}, ∅, ∅⟩
    [⟨⟨2024, 1, 2⟩, {"B", "C", "D"}, ∅, ∅⟩] (by decide) (by decide)
  exact h.trans (by decide)

/-- C4: the three output sequences and the dates sequence each have exactly
one entry per valid date directory (given the archive's distinct snapshot
dates), and the dates sequence is strictly ascending. -/
theorem churn_C4 (entries : List DirEntry)
    (hnd : ((snapshots entries).map Snapshot.date).Nodup) :
    (newSeq entries).length = validDirCount entries ∧
    (departedSeq entries).length = validDirCount entries ∧
    (rateSeq entries).length = validDirCount entries ∧
    (dateSeq entries).length = validDirCount entries ∧
    (dateSeq entries).Pairwise dateLt := by
  have hlen : (dateSeq entries).length = validDirCount entries := by
    unfold dateSeq sortedDates
    rw [List.length_insertionSort, List.dedup_eq_self.mpr hnd, List.length_map,
      snapshots_length]
  have hcu : (churnUnions entries).length = validDirCount entries := by
    unfold churnUnions
    rw [List.length_map]
    exact hlen
  refine ⟨?_, ?_, ?_, hlen, ?_⟩
  · unfold newSeq churnTriples
    rw [List.length_map, dailySeries_length, hcu]
  · unfold departedSeq churnTriples
    rw [List.length_map, dailySeries_length, hcu]
  · unfold rateSeq churnTriples
    rw [List.length_map, dailySeries_length, hcu]
  · have hsorted : (dateSeq entries).Pairwise dateLe := by
      unfold dateSeq sortedDates
      exact List.sorted_insertionSort dateLe _
    have hnodup : (dateSeq entries).Nodup := by
      unfold dateSeq sortedDates
      exact ((List.perm_insertionSort dateLe _).nodup_iff).mpr
        (List.nodup_dedup _)
    exact (hsorted.and hnodup).imp fun hab => dateLt_of_dateLe_of_ne hab.1 hab.2

/-- Witness for C4 at a concrete two-day archive. -/
theorem churn_C4_witness :
    (newSeq demoPrevCur).length = validDirCount demoPrevCur ∧
    (departedSeq demoPrevCur).length = validDirCount demoPrevCur ∧
    (rateSeq demoPrevCur).length = validDirCount demoPrevCur ∧
    (dateSeq demoPrevCur).length = validDirCount demoPrevCur ∧
    (dateSeq demoPrevCur).Pairwise dateLt :=
  churn_C4 demoPrevCur (by decide)

/-- C10: every churn-rate entry lies in [0, 100]: the first entry is 0 by
construction, and later entries divide the size of a subset of the previous
union by the size of that union. -/
theorem churn_C10 (entries : List DirEntry) (r : ℚ) (hr : r ∈ rateSeq entries) :
    0 ≤ r ∧ r ≤ 100 := by
  unfold rateSeq churnTriples dailySeries at hr
  rw [List.map_map] at hr
  rcases List.mem_map.mp hr with ⟨i, hi, rfl⟩
  simp only [Function.comp]
  by_cases h0 : i = 0
  · simp only [h0, if_pos]
    norm_num
  · simp only [if_neg h0]
    by_cases hp : 0 < ((churnUnions entries).getD (i - 1) ∅).card
    · simp only [if_pos hp]
      constructor
      · positivity
      · have hsub : ((churnUnions entries).getD (i - 1) ∅ \
            (churnUnions entries).getD i ∅).card ≤
            ((churnUnions entries).getD (i - 1) ∅).card :=
          Finset.card_le_card Finset.sdiff_subset
        have hq : (((churnUnions entries).getD (i - 1) ∅ \
            (churnUnions entries).getD i ∅).card : ℚ) /
            (((churnUnions entries).getD (i - 1) ∅).card : ℚ) ≤ 1 := by
          rw [div_le_one (by exact_mod_cast hp)]
          exact_mod_cast hsub
        calc (((churnUnions entries).getD (i - 1) ∅ \
              (churnUnions entries).getD i ∅).card : ℚ) /
              (((churnUnions entries).getD (i - 1) ∅).card : ℚ) * 100
            ≤ 1 * 100 := by
              exact mul_le_mul_of_nonneg_right hq (by norm_num)
          _ = 100 := by norm_num
    · simp only [if_neg hp]
      norm_num

/-- Witness for C10: the day-0 rate 0 of a concrete archive is in range. -/
theorem churn_C10_witness : 0 ≤ (0 : ℚ) ∧ (0 : ℚ) ≤ 100 :=
  churn_C10 demoPrevCur 0 (by decide)

/-- C1: for every archive and every index i with 1 ≤ i, entry i of the daily
series is new = |current − previous|, departed = |previous − current| and
churn rate = departed / |previous| × 100 when the previous union is
non-empty, else 0 (no NaN or infinity arises in the exact model); for the
concrete archive with previous union A,B,C and current union B,C,D the
series is new = [3,1], departed = [0,1] and the second churn rate is
exactly 100/3. -/
theorem churn_C1 (entries : List DirEntry) (i : Nat) (h1 : 1 ≤ i)
    (h2 : i < (churnUnions entries).length) :
    ((churnTriples entries).getD i (0, 0, 0) =
      (((churnUnions entries).getD i ∅ \
          (churnUnions entries).getD (i - 1) ∅).card,
       ((churnUnions entries).getD (i - 1) ∅ \
          (churnUnions entries).getD i ∅).card,
       if 0 < ((churnUnions entries).getD (i - 1) ∅).card then
         (((churnUnions entries).getD (i - 1) ∅ \
             (churnUnions entries).getD i ∅).card : ℚ) /
           (((churnUnions entries).getD (i - 1) ∅).card : ℚ) * 100
       else 0)) ∧
    newSeq demoPrevCur = [3, 1] ∧
    departedSeq demoPrevCur = [0, 1] ∧
    (rateSeq demoPrevCur).getD 1 0 = 100 / 3 := by
  refine ⟨dailySeries_getD_succ _ i h1 h2, by decide, by decide, ?_⟩
  have hu : churnUnions demoPrevCur = [{"A", "B", "C"}, {"B", "C", "D"}] := by
    decide
  have hlen : 1 < (churnTriples demoPrevCur).length := by
    unfold churnTriples
    rw [dailySeries_length, hu]
    decide
  have hform := dailySeries_getD_succ (churnUnions demoPrevCur) 1 (le_refl 1)
    (by rw [hu]; decide)
  rw [show rateSeq demoPrevCur = (churnTriples demoPrevCur).map
      (fun t => t.2.2) from rfl,
    List.getD_eq_getElem _ _ (by rw [List.length_map]; exact hlen),
    List.getElem_map, ← List.getD_eq_getElem _ (0, 0, 0) hlen,
    show churnTriples demoPrevCur = dailySeries (churnUnions demoPrevCur)
      from rfl, hform, hu]
  rw [show (([{"A", "B", "C"}, {"B", "C", "D"}] :
      List (Finset String)).getD (1 - 1) ∅) = {"A", "B", "C"} from rfl]
  rw [show (([{"A", "B", "C"}, {"B", "C", "D"}] :
      List (Finset String)).getD 1 ∅) = {"B", "C", "D"} from rfl]
  rw [show ({"A", "B", "C"} : Finset String).card = 3 from by decide]
  rw [show (({"A", "B", "C"} : Finset String) \ {"B", "C", "D"}).card = 1
    from by decide]
  norm_num

/-- Witness for C1 at the concrete archive and index 1. -/
theorem churn_C1_witness :
    (churnTriples demoPrevCur).getD 1 (0, 0, 0) =
      (((churnUnions demoPrevCur).getD 1 ∅ \
          (churnUnions demoPrevCur).getD 0 ∅).card,
       ((churnUnions demoPrevCur).getD 0 ∅ \
          (churnUnions demoPrevCur).getD 1 ∅).card,
       if 0 < ((churnUnions demoPrevCur).getD 0 ∅).card then
         (((churnUnions demoPrevCur).getD 0 ∅ \
             (churnUnions demoPrevCur).getD 1 ∅).card : ℚ) /
           (((churnUnions demoPrevCur).getD 0 ∅).card : ℚ) * 100
       else 0) :=
  (churn_C1 demoPrevCur 1 (le_refl 1) (by decide)).1

lemma dateLe_refl (a : Date) : dateLe a a := by
  unfold dateLe; omega

lemma pairwise_head_min {ds : List Date} (h : ds.Pairwise dateLt) {f : Date}
    (hh : ds.head? = some f) : ∀ d ∈ ds, dateLe f d := by
  cases ds with
  | nil => cases hh
  | cons a t =>
    simp only [List.head?_cons, Option.some.injEq] at hh
    subst hh
    intro d hd
    rcases List.mem_cons.mp hd with rfl | hmem
    · exact dateLe_refl d
    · exact dateLe_of_dateLt ((List.pairwise_cons.mp h).1 d hmem)

lemma pairwise_getLast_max {ds : List Date} (h : ds.Pairwise dateLt) {l : Date}
    (hl : ds.getLast? = some l) : ∀ d ∈ ds, dateLe d l := by
  rw [← List.head?_reverse] at hl
  have h2 : ds.reverse.Pairwise (fun a b => dateLt b a) :=
    List.pairwise_reverse.mpr h
  intro d hd
  have hd2 : d ∈ ds.reverse := List.mem_reverse.mpr hd
  cases hr : ds.reverse with
  | nil =>
    rw [hr] at hd2
    cases hd2
  | cons a t =>
    rw [hr] at hl hd2 h2
    simp only [List.head?_cons, Option.some.injEq] at hl
    subst hl
    rcases List.mem_cons.mp hd2 with rfl | hmem
    · exact dateLe_refl d
    · exact dateLe_of_dateLt ((List.pairwise_cons.mp h2).1 d hmem)

lemma mem_of_getLast?_eq {ds : List Date} {l : Date}
    (h : ds.getLast? = some l) : l ∈ ds := by
  rw [← List.head?_reverse] at h
  exact List.mem_reverse.mp (List.mem_of_mem_head? (by simp [h]))

/-- C5: with directories processed in ascending parsed-date order, every
identifier's first-seen date is the minimum and its last-seen date the
maximum snapshot date whose snapshot contains it in any of the three
roles. -/
theorem churn_C5 (entries : List DirEntry) (ip : String) (f l : Date)
    (hs : ((snapshots entries).map Snapshot.date).Pairwise dateLt)
    (hf : firstSeenD (snapshots entries) ip = some f)
    (hl : lastSeenD (snapshots entries) ip = some l) :
    f ∈ appearDates (snapshots entries) ip ∧
    l ∈ appearDates (snapshots entries) ip ∧
    ∀ d ∈ appearDates (snapshots entries) ip, dateLe f d ∧ dateLe d l := by
  rw [firstSeenD_eq_head] at hf
  rw [lastSeenD_eq_getLast] at hl
  have hp : (appearDates (snapshots entries) ip).Pairwise dateLt := by
    unfold appearDates
    exact List.pairwise_map.mpr ((List.pairwise_map.mp hs).filter _)
  exact ⟨List.mem_of_mem_head? (by simp [hf]), mem_of_getLast?_eq hl,
    fun d hd => ⟨pairwise_head_min hp hf d hd, pairwise_getLast_max hp hl d hd⟩⟩

/-- Witness for C5: in the concrete archive, identifier X is first seen
2024-01-01 and last seen 2024-01-10, the minimum and maximum of its
appearance dates. -/
theorem churn_C5_witness :
    (⟨2024, 1, 1⟩ : Date) ∈ appearDates (snapshots demoLife) "X" ∧
    (⟨2024, 1, 10⟩ : Date) ∈ appearDates (snapshots demoLife) "X" ∧
    ∀ d ∈ appearDates (snapshots demoLife) "X",
      dateLe ⟨2024, 1, 1⟩ d ∧ dateLe d ⟨2024, 1, 10⟩ :=
  churn_C5 demoLife "X" ⟨2024, 1, 1⟩ ⟨2024, 1, 10⟩ (by decide) (by decide)
    (by decide)

/-- C6: an identifier's lifetime is last-seen minus first-seen in days; an
identifier appearing in exactly one snapshot has lifetime 0; an identifier
whose appearances start on 2024-01-01 and end on 2024-01-10 (with any
intermediate appearances) has lifetime exactly 9. -/
theorem churn_C6 (ss : List Snapshot) (ip : String) :
    (∀ f l, firstSeenD ss ip = some f → lastSeenD ss ip = some l →
      lifespanDays ss ip = dayNumber l - dayNumber f) ∧
    (∀ d, appearDates ss ip = [d] → lifespanDays ss ip = 0) ∧
    (∀ mid, appearDates ss ip = ⟨2024, 1, 1⟩ :: mid ++ [⟨2024, 1, 10⟩] →
      lifespanDays ss ip = 9) := by
  refine ⟨?_, ?_, ?_⟩
  · intro f l hf hl
    unfold lifespanDays
    rw [hf, hl]
  · intro d hd
    unfold lifespanDays
    rw [firstSeenD_eq_head, lastSeenD_eq_getLast, hd]
    simp
  · intro mid hd
    unfold lifespanDays
    rw [firstSeenD_eq_head, lastSeenD_eq_getLast, hd, List.getLast?_concat,
      List.cons_append, List.head?_cons]
    decide

/-- Witness for C6: identifier X of the concrete archive has lifetime 9. -/
theorem churn_C6_witness : lifespanDays (snapshots demoLife) "X" = 9 :=
  (churn_C6 (snapshots demoLife) "X").2.2 [] (by decide)

/-- C7: a directory whose name does not parse as a valid calendar date (such
as 2024-13-40) is skipped silently: it contributes no snapshot and the
whole run computes exactly what it computes without that directory. -/
theorem churn_C7 (pre post : List DirEntry) (e : DirEntry)
    (h : parseDate e.name = none) :
    snapshots (pre ++ e :: post) = snapshots (pre ++ post) ∧
    collect_churn_data (pre ++ e :: post) = collect_churn_data (pre ++ post) ∧
    parseDate "2024-13-40" = none := by
  have he : entrySnapshot? e = none := by simp [entrySnapshot?, h]
  have hsnap : snapshots (pre ++ e :: post) = snapshots (pre ++ post) := by
    unfold snapshots
    rw [List.filterMap_append, List.filterMap_append, List.filterMap_cons, he]
  have hun : churnUnions (pre ++ e :: post) = churnUnions (pre ++ post) := by
    unfold churnUnions
    rw [hsnap]
  have htr : churnTriples (pre ++ e :: post) = churnTriples (pre ++ post) := by
    unfold churnTriples
    rw [hun]
  have hnew : newSeq (pre ++ e :: post) = newSeq (pre ++ post) := by
    unfold newSeq
    rw [htr]
  have hdep : departedSeq (pre ++ e :: post) = departedSeq (pre ++ post) := by
    unfold departedSeq
    rw [htr]
  have hrate : rateSeq (pre ++ e :: post) = rateSeq (pre ++ post) := by
    unfold rateSeq
    rw [htr]
  refine ⟨hsnap, ?_, by decide⟩
  simp only [collect_churn_data, hsnap, hnew, hdep, hrate]

/-- Witness for C7: a single invalid directory behaves like an empty
archive. -/
theorem churn_C7_witness :
    snapshots [⟨"2024-13-40", some ["A"], none, none⟩] = snapshots [] ∧
    collect_churn_data [⟨"2024-13-40", some ["A"], none, none⟩] =
      collect_churn_data [] ∧
    parseDate "2024-13-40" = none :=
  churn_C7 [] [] ⟨"2024-13-40", some ["A"], none, none⟩ (by decide)

/-- Counterexample to C2: on an archive with no valid date directory the run
does not complete; `min(lifespans)` raises before any statistic is
reported. -/
theorem churn_C2_counterexample : (collect_churn_data []).isOk = false := by
  decide

/-- C2 amended: on an archive yielding no snapshots the run raises
(`min()` of an empty sequence); only the average lifetime is guarded by an
emptiness check and evaluates to 0. -/
theorem churn_C2_amended (entries : List DirEntry)
    (h : snapshots entries = []) :
    collect_churn_data entries =
      Except.error "ValueError: min() iterable argument is empty" ∧
    avgLifetime (lifespansList (snapshots entries)) = 0 := by
  have hlsp : lifespansList (snapshots entries) = 0 := by
    rw [h]
    rfl
  constructor
  · simp only [collect_churn_data, hlsp, if_pos]
  · rw [hlsp]
    unfold avgLifetime
    rw [if_pos rfl]

/-- Witness for the amended C2 at the empty archive. -/
theorem churn_C2_amended_witness :
    collect_churn_data [] =
      Except.error "ValueError: min() iterable argument is empty" ∧
    avgLifetime (lifespansList (snapshots [])) = 0 :=
  churn_C2_amended [] rfl

/-- Counterexample to C8: `count_nodes_in_file` counts blank lines; on a
file of lines 10.0.0.1, blank, 10.0.0.2 it returns 3, not the blank-free
count 2. -/
theorem churn_C8_counterexample :
    count_nodes_in_file (some ["10.0.0.1", "", "10.0.0.2"]) = 3 ∧
    ¬ count_nodes_in_file (some ["10.0.0.1", "", "10.0.0.2"]) =
        (["10.0.0.1", "", "10.0.0.2"].filter (fun l => pyStrip l != "")).length := by
  decide

/-- C8 amended: a missing role file is treated as empty by both readers, and
the churn aggregator's reader ignores blank lines (dropping them leaves its
result unchanged); `count_nodes_in_file`, however, counts every line of an
existing file, blank lines included. -/
theorem churn_C8_amended (lines : List String) :
    readRole none = ∅ ∧
    count_nodes_in_file none = 0 ∧
    readRole (some lines) =
      readRole (some (lines.filter (fun l => pyStrip l != ""))) ∧
    count_nodes_in_file (some lines) = lines.length := by
  refine ⟨rfl, rfl, ?_, rfl⟩
  simp only [readRole]
  have hlist : (lines.map pyStrip).filter (fun s => s != "") =
      ((lines.filter (fun l => pyStrip l != "")).map pyStrip).filter
        (fun s => s != "") := by
    induction lines with
    | nil => rfl
    | cons a t ih =>
      cases h : (pyStrip a != "") with
      | true => simp [List.filter_cons, h, ih]
      | false => simp [List.filter_cons, h, ih]
  rw [hlist]

lemma natCastListSum (l : List Nat) :
    (List.map (Nat.cast : Nat → ℚ) l).sum = ((l.sum : ℚ)) :=
  (Nat.cast_list_sum l).symm

/-- C9: the textual report's three averages are means over the full series
including the day-0 entry, while the chart annotation's three averages are
means over the series with the day-0 entry dropped. -/
theorem churn_C9 (d : ChurnData) :
    reportAverages d =
      (specMean (List.map (Nat.cast : Nat → ℚ) d.new_nodes),
       specMean (List.map (Nat.cast : Nat → ℚ) d.departed_nodes),
       specMean d.churn_rate) ∧
    chartAverages d =
      (if (d.new_nodes.drop 1).isEmpty then 0
       else specMean (List.map (Nat.cast : Nat → ℚ) (d.new_nodes.drop 1)),
       if (d.departed_nodes.drop 1).isEmpty then 0
       else specMean (List.map (Nat.cast : Nat → ℚ) (d.departed_nodes.drop 1)),
       if (d.churn_rate.drop 1).isEmpty then 0
       else specMean (d.churn_rate.drop 1)) := by
  unfold reportAverages chartAverages specMean
  constructor
  · simp only [natCastListSum, List.length_map]
  · simp only [natCastListSum, List.length_map]
